import Mathlib

/-!
# Fan-out appender (`component/prometheus/fanout.go`) and secret redaction
# (`pkg/flow/json_walker.go`)

Shallow embedding of the Go code.  Every piece of code the fan-out calls through an
interface (a child appender, an appendable factory, the global ref mapping) is a state
transformer on a world `W`, so a child may keep state, fail, or answer differently on
every call.  Methods with a pointer receiver return the receiver next to their result.
-/

set_option autoImplicit false

namespace Agent

/-! ## Values passed through the fan-out -/

/-- Go `storage.SeriesRef` (a `uint64`); `0` is the unset reference. -/
abbrev SeriesRef := Nat

/-- Go `labels.Labels`: name/value pairs. -/
abbrev Labels := List (String × String)

/-- Go `float64`, carried as its bit pattern; the fan-out only passes it on. -/
abbrev float64 := Nat

/-- Go `exemplar.Exemplar`. -/
structure Exemplar where
  Labels : Labels
  Value : float64
  Ts : Int
  HasTs : Bool
  deriving DecidableEq, Repr

/-- Go `metadata.Metadata`. -/
structure Metadata where
  Type_ : String
  Unit : String
  Help : String
  deriving DecidableEq, Repr

/-! ## Errors and `go-multierror` -/

/-- A non-nil Go `error` value.  `multi es` is a `*multierror.Error` whose `Errors` field is
`es`, `multiNil` is a nil `*multierror.Error` stored in an interface, and `plain msg` is any
other error (such as one made by `fmt.Errorf`). -/
inductive GoError where
  | plain (msg : String)
  | multiNil
  | multi (Errors : List GoError)
  deriving Repr

/-- Go `error` interface; `none` is `nil`. -/
abbrev error := Option GoError

/-- The flattening loop of `multierror.Append`: a `*multierror.Error` argument contributes
its own entries, a nil one nothing, any other non-nil error itself. -/
def multierror.flatten : List GoError → List error → List GoError
  | acc, [] => acc
  | acc, some (GoError.multi inner) :: es => multierror.flatten (acc ++ inner) es
  | acc, some GoError.multiNil :: es => multierror.flatten acc es
  | acc, some (GoError.plain m) :: es => multierror.flatten (acc ++ [GoError.plain m]) es
  | acc, none :: es => multierror.flatten acc es

/-- Go `multierror.Append(err, errs...)`; the result is the never-nil `*multierror.Error`. -/
def multierror.Append (err : error) (errs : List error) : GoError :=
  match err with
  | some (GoError.multi es) => GoError.multi (multierror.flatten es errs)
  | some GoError.multiNil => GoError.multi (multierror.flatten [] errs)
  | some (GoError.plain m) => GoError.multi (multierror.flatten [] (some (GoError.plain m) :: errs))
  | none => GoError.multi (multierror.flatten [] errs)

/-- The `Errors` list of a returned aggregate; empty for `nil` and for anything that is not
a `*multierror.Error`. -/
def error.Errors : error → List GoError
  | some (GoError.multi es) => es
  | _ => []

/-! ## Interfaces of the Prometheus storage package -/

/-- Go interface `storage.Appender`. -/
structure storage.Appender (W : Type) where
  Append : SeriesRef → Labels → Int → float64 → W → (SeriesRef × error) × W
  Commit : W → error × W
  Rollback : W → error × W
  AppendExemplar : SeriesRef → Labels → Exemplar → W → (SeriesRef × error) × W
  UpdateMetadata : SeriesRef → Labels → Metadata → W → (SeriesRef × error) × W

/-- One value stored in a Go `context.Context`. -/
inductive ContextValue where
  | target
  | metricMetadataStore
  | value (key val : String)
  deriving DecidableEq, Repr

/-- Go `context.Context` as its chain of `WithValue` entries, newest first. -/
abbrev Context := List ContextValue

/-- Go `scrape.ContextWithTarget(ctx, &scrape.Target{})`. -/
def scrape.ContextWithTarget (ctx : Context) : Context := ContextValue.target :: ctx

/-- Go `scrape.ContextWithMetricMetadataStore(ctx, NoopMetadataStore{})`. -/
def scrape.ContextWithMetricMetadataStore (ctx : Context) : Context :=
  ContextValue.metricMetadataStore :: ctx

/-- Go interface `storage.Appendable`. -/
structure storage.Appendable (W : Type) where
  Appender : Context → W → storage.Appender W × W

/-- The package-level `GlobalRefMapping`, defined in another file of the package: its
`GetOrAddGlobalRefID` is taken as an arbitrary state transformer. -/
structure GlobalRefMap (W : Type) where
  GetOrAddGlobalRefID : Labels → W → Nat × W

/-! ## `fanout.go` -/

/-- Go `type appender struct`. -/
structure appender (W : Type) where
  children : List (storage.Appender W)
  componentID : String

/-- Go `type Fanout struct`; a nil destination is `none`.  The mutex has no sequential
content. -/
structure Fanout (W : Type) where
  children : List (Option (storage.Appendable W))
  componentID : String

variable {W : Type}

/-- Go `NewFanout`. -/
def NewFanout (children : List (Option (storage.Appendable W))) (componentID : String) :
    Fanout W :=
  { children := children, componentID := componentID }

/-- Go `(*Fanout).UpdateChildren`. -/
def Fanout.UpdateChildren (f : Fanout W) (children : List (Option (storage.Appendable W))) :
    Fanout W :=
  { f with children := children }

/-- The `for _, x := range f.children` loop of `(*Fanout).Appender`. -/
def Fanout.Appender.loop (ctx : Context) :
    List (Option (storage.Appendable W)) → List (storage.Appender W) → W →
      List (storage.Appender W) × W
  | [], acc, w => (acc, w)
  | none :: xs, acc, w => Fanout.Appender.loop ctx xs acc w
  | some x :: xs, acc, w =>
      let r := x.Appender ctx w
      Fanout.Appender.loop ctx xs (acc ++ [r.1]) r.2

/-- Go `(*Fanout).Appender`: the new transaction, the receiver, the world. -/
def Fanout.Appender (f : Fanout W) (ctx : Context) (w : W) : appender W × Fanout W × W :=
  let ctx := scrape.ContextWithTarget ctx
  let ctx := scrape.ContextWithMetricMetadataStore ctx
  let r := Fanout.Appender.loop ctx f.children [] w
  ({ children := r.1, componentID := f.componentID }, f, r.2)

/-- The `for _, x := range a.children` loop of `(*appender).Append`. -/
def appender.Append.loop (ref : SeriesRef) (l : Labels) (t : Int) (v : float64) :
    List (storage.Appender W) → error → W → error × W
  | [], multiErr, w => (multiErr, w)
  | x :: xs, multiErr, w =>
      let r := x.Append ref l t v w
      match r.1.2 with
      | some err => appender.Append.loop ref l t v xs
          (some (multierror.Append multiErr [some err])) r.2
      | none => appender.Append.loop ref l t v xs multiErr r.2

/-- Go `(*appender).Append`: the result pair, the receiver, the world. -/
def appender.Append (G : GlobalRefMap W) (a : appender W) (ref : SeriesRef) (l : Labels)
    (t : Int) (v : float64) (w : W) : (SeriesRef × error) × appender W × W :=
  let p : SeriesRef × W := if ref = 0 then G.GetOrAddGlobalRefID l w else (ref, w)
  let r := appender.Append.loop p.1 l t v a.children none p.2
  ((p.1, r.1), a, r.2)

/-- The loop of `(*appender).Commit`. -/
def appender.Commit.loop : List (storage.Appender W) → error → W → error × W
  | [], multiErr, w => (multiErr, w)
  | x :: xs, multiErr, w =>
      let r := x.Commit w
      match r.1 with
      | some err => appender.Commit.loop xs (some (multierror.Append multiErr [some err])) r.2
      | none => appender.Commit.loop xs multiErr r.2

/-- Go `(*appender).Commit`. -/
def appender.Commit (a : appender W) (w : W) : error × appender W × W :=
  let r := appender.Commit.loop a.children none w
  (r.1, a, r.2)

/-- The loop of `(*appender).Rollback`. -/
def appender.Rollback.loop : List (storage.Appender W) → error → W → error × W
  | [], multiErr, w => (multiErr, w)
  | x :: xs, multiErr, w =>
      let r := x.Rollback w
      match r.1 with
      | some err => appender.Rollback.loop xs (some (multierror.Append multiErr [some err])) r.2
      | none => appender.Rollback.loop xs multiErr r.2

/-- Go `(*appender).Rollback`. -/
def appender.Rollback (a : appender W) (w : W) : error × appender W × W :=
  let r := appender.Rollback.loop a.children none w
  (r.1, a, r.2)

/-- Go `(*appender).AppendExemplar`. -/
def appender.AppendExemplar (a : appender W) (_ref : SeriesRef) (_l : Labels) (_e : Exemplar)
    (w : W) : (SeriesRef × error) × appender W × W :=
  ((0, some (GoError.plain "appendExemplar not supported yet")), a, w)

/-- Go `(*appender).UpdateMetadata`. -/
def appender.UpdateMetadata (a : appender W) (_ref : SeriesRef) (_l : Labels) (_m : Metadata)
    (w : W) : (SeriesRef × error) × appender W × W :=
  ((0, some (GoError.plain "updateMetadata not supported yet")), a, w)

/-- The `*appender` as a `storage.Appender` (`var _ storage.Appender = (*appender)(nil)`). -/
def appender.toAppender (G : GlobalRefMap W) (a : appender W) : storage.Appender W where
  Append ref l t v w := let r := appender.Append G a ref l t v w; (r.1, r.2.2)
  Commit w := let r := appender.Commit a w; (r.1, r.2.2)
  Rollback w := let r := appender.Rollback a w; (r.1, r.2.2)
  AppendExemplar ref l e w := let r := appender.AppendExemplar a ref l e w; (r.1, r.2.2)
  UpdateMetadata ref l m w := let r := appender.UpdateMetadata a ref l m w; (r.1, r.2.2)

/-! ## Observing the calls made through the interfaces

A recording wrapper around a child, a destination or the ref mapping behaves as the wrapped
object does and writes each call, with the error it returned, at the end of a log kept next
to the world. -/

/-- What was invoked: a method of child or destination number `dest`, or the ref mapping. -/
inductive Op where
  | Appender (dest : Nat) (ctx : Context)
  | Append (dest : Nat) (ref : SeriesRef) (l : Labels) (t : Int) (v : float64)
  | Commit (dest : Nat)
  | Rollback (dest : Nat)
  | AppendExemplar (dest : Nat) (ref : SeriesRef) (l : Labels) (e : Exemplar)
  | UpdateMetadata (dest : Nat) (ref : SeriesRef) (l : Labels) (m : Metadata)
  | GetOrAddGlobalRefID (l : Labels)
  deriving DecidableEq, Repr

/-- One recorded call and the error it returned (`nil` where the call returns none). -/
structure Event where
  op : Op
  err : error

/-- The world of a recorded run. -/
abbrev Rec (W : Type) := W × List Event

/-- Child `dest` with every method recorded. -/
def spy (dest : Nat) (x : storage.Appender W) : storage.Appender (Rec W) where
  Append ref l t v s :=
    let r := x.Append ref l t v s.1
    (r.1, (r.2, s.2 ++ [{ op := Op.Append dest ref l t v, err := r.1.2 }]))
  Commit s :=
    let r := x.Commit s.1
    (r.1, (r.2, s.2 ++ [{ op := Op.Commit dest, err := r.1 }]))
  Rollback s :=
    let r := x.Rollback s.1
    (r.1, (r.2, s.2 ++ [{ op := Op.Rollback dest, err := r.1 }]))
  AppendExemplar ref l e s :=
    let r := x.AppendExemplar ref l e s.1
    (r.1, (r.2, s.2 ++ [{ op := Op.AppendExemplar dest ref l e, err := r.1.2 }]))
  UpdateMetadata ref l m s :=
    let r := x.UpdateMetadata ref l m s.1
    (r.1, (r.2, s.2 ++ [{ op := Op.UpdateMetadata dest ref l m, err := r.1.2 }]))

/-- The children `cs`, recorded under the numbers `i`, `i+1`, ... of their positions. -/
def spyFrom : Nat → List (storage.Appender W) → List (storage.Appender (Rec W))
  | _, [] => []
  | i, x :: xs => spy i x :: spyFrom (i + 1) xs

/-- Destination `dest` with its factory recorded; the appender it opens is recorded under
the same number. -/
def spyAppendable (dest : Nat) (x : storage.Appendable W) : storage.Appendable (Rec W) where
  Appender ctx s :=
    let r := x.Appender ctx s.1
    (spy dest r.1, (r.2, s.2 ++ [{ op := Op.Appender dest ctx, err := none }]))

/-- The destination list `ds`, recorded under the numbers `i`, `i+1`, ... of the positions
in the list; nil entries stay nil and keep their position. -/
def spyDests : Nat → List (Option (storage.Appendable W)) →
    List (Option (storage.Appendable (Rec W)))
  | _, [] => []
  | i, none :: xs => none :: spyDests (i + 1) xs
  | i, some x :: xs => some (spyAppendable i x) :: spyDests (i + 1) xs

/-- The ref mapping with its lookups recorded. -/
def spyRefMap (G : GlobalRefMap W) : GlobalRefMap (Rec W) where
  GetOrAddGlobalRefID l s :=
    let r := G.GetOrAddGlobalRefID l s.1
    (r.1, (r.2, s.2 ++ [{ op := Op.GetOrAddGlobalRefID l, err := none }]))

/-- The positions `i`, `i+1`, ... of the non-nil entries of a destination list. -/
def liveDests {α : Type} : Nat → List (Option α) → List Nat
  | _, [] => []
  | i, none :: xs => liveDests (i + 1) xs
  | i, some _ :: xs => i :: liveDests (i + 1) xs

/-- The non-nil errors of a log, oldest first. -/
def failures (log : List Event) : List GoError := log.filterMap Event.err

/-- What one failing child adds to the aggregate's `Errors`: a `*multierror.Error` its own
entries (none when it is nil), any other error itself. -/
def contribution : GoError → List GoError
  | GoError.multi es => es
  | GoError.multiNil => []
  | GoError.plain m => [GoError.plain m]

/-- Whether an error is not a `*multierror.Error`. -/
def GoError.isPlain : GoError → Bool
  | GoError.plain _ => true
  | _ => false

/-- The children `cs` recorded under the given numbers, pairwise. -/
def spyAs : List Nat → List (storage.Appender W) → List (storage.Appender (Rec W))
  | t :: ts, x :: xs => spy t x :: spyAs ts xs
  | _, _ => []

/-- The first children of `cs`, as many as there are numbers: what `spyAs` wraps. -/
def spyless : List Nat → List (storage.Appender W) → List (storage.Appender W)
  | _ :: ts, x :: xs => x :: spyless ts xs
  | _, _ => []

/-- The shape shared by the loops of `Append`, `Commit` and `Rollback`: `call` is the child
method invoked in the loop body. -/
def visit {V : Type} (call : storage.Appender V → V → error × V) :
    List (storage.Appender V) → error → V → error × V
  | [], multiErr, w => (multiErr, w)
  | x :: xs, multiErr, w =>
      match (call x w).1 with
      | some err => visit call xs (some (multierror.Append multiErr [some err])) (call x w).2
      | none => visit call xs multiErr (call x w).2

/-- The events a visit of the children `cs`, numbered `ts`, writes from world `w`. -/
def visitEvents (op : Nat → Op) (call : storage.Appender W → W → error × W) :
    List Nat → List (storage.Appender W) → W → List Event
  | t :: ts, x :: xs, w =>
      { op := op t, err := (call x w).1 } :: visitEvents op call ts xs (call x w).2
  | _, _, _ => []

/-- Folding `multierror.Append` over a list of non-nil errors, as the loops do. -/
def aggregate : error → List GoError → error
  | multiErr, [] => multiErr
  | multiErr, e :: es => aggregate (some (multierror.Append multiErr [some e])) es

/-- The child method in the body of the `Append` loop. -/
def callAppend {V : Type} (ref : SeriesRef) (l : Labels) (t : Int) (v : float64)
    (x : storage.Appender V) (w : V) : error × V :=
  ((x.Append ref l t v w).1.2, (x.Append ref l t v w).2)

/-- The child method in the body of the `Commit` loop. -/
def callCommit {V : Type} (x : storage.Appender V) (w : V) : error × V := x.Commit w

/-- The child method in the body of the `Rollback` loop. -/
def callRollback {V : Type} (x : storage.Appender V) (w : V) : error × V := x.Rollback w

/-- Specification of the child list of a new transaction, after the words of the design:
one appender per non-nil destination, opened in list order. -/
def openAll (ctx : Context) : List (Option (storage.Appendable W)) → W →
    List (storage.Appender W) × W
  | [], w => ([], w)
  | none :: xs, w => openAll ctx xs w
  | some x :: xs, w =>
      let r := x.Appender ctx w
      let rest := openAll ctx xs r.2
      (r.1 :: rest.1, rest.2)

/-- Whether an operation is a lookup in the ref mapping. -/
def Op.isLookup : Op → Bool
  | Op.GetOrAddGlobalRefID _ => true
  | _ => false

/-- The operations recorded in a log, oldest first. -/
def ops (log : List Event) : List Op := log.map Event.op

/-- What a sequence of failing children adds to the aggregate's `Errors`, in order. -/
def contributions : List GoError → List GoError
  | [] => []
  | e :: es => contribution e ++ contributions es

/-! ## Sample children -/

/-- A child every method of which fails with `e`. -/
def failing (e : GoError) : storage.Appender W where
  Append _ _ _ _ w := ((0, some e), w)
  Commit w := (some e, w)
  Rollback w := (some e, w)
  AppendExemplar _ _ _ w := ((0, some e), w)
  UpdateMetadata _ _ _ w := ((0, some e), w)

/-- A child every method of which succeeds and hands the ref back. -/
def accepting : storage.Appender W where
  Append ref _ _ _ w := ((ref, none), w)
  Commit w := (none, w)
  Rollback w := (none, w)
  AppendExemplar ref _ _ w := ((ref, none), w)
  UpdateMetadata ref _ _ w := ((ref, none), w)

/-- A ref mapping that answers every lookup with `id`. -/
def constRefMap (id : Nat) : GlobalRefMap Unit where
  GetOrAddGlobalRefID _ w := (id, w)

/-! ## `json_walker.go` -/

/-- Go `rivertags.Field`, the parsed tag of a struct field. -/
structure rivertags.Field where
  Name : List String
  Index : List Int
  Flags : Nat
  deriving DecidableEq, Repr

/-- Go `type Field struct` of package `flow`, over the type `V` of what its `Value` holds
and the type `H` of the health record, which is declared elsewhere. -/
structure FieldOf (H V : Type) where
  ID : String
  Key : String
  Name : String
  Label : String
  Type_ : String
  References : List String
  ReferencedBy : List String
  Health : Option H
  Original : String
  Value : V

/-- What the `interface{}` in `Field.Value` holds: nothing, a `*Field`, a string, a number,
a bool or a `[]*Field`. -/
inductive FieldValue (H : Type) where
  | nil
  | field (f : FieldOf H (FieldValue H))
  | string (s : String)
  | int (i : Int)
  | uint (n : Nat)
  | float (bits : Nat)
  | bool (b : Bool)
  | fields (fs : List (FieldOf H (FieldValue H)))

/-- Go `Field`. -/
abbrev Field (H : Type) := FieldOf H (FieldValue H)

/-- Go `&Field{Type: typ}`: every other field has its zero value. -/
def Field.ofType (H : Type) (typ : String) : Field H :=
  { ID := "", Key := "", Name := "", Label := "", Type_ := typ, References := [],
    ReferencedBy := [], Health := none, Original := "", Value := FieldValue.nil }

/-- A Go value that is not a bare interface: a pointer (nil or not), a `rivertypes.Secret`,
a `rivertypes.OptionalSecret`, or a value `x : X` of any other type. -/
inductive GoValue (X : Type) where
  | ptr (target : Option (GoValue X))
  | secret (s : String)
  | optionalSecret (IsSecret : Bool) (Value : String)
  | other (x : X)

/-- What `convertField` needs of the values of other types, whose handling rests on the
reflection helpers of packages `value` and `rivertags`: their `IsZero`, and the function
body from `rt := value.RiverType(...)` on, given the value, the tag and `nf`. -/
structure Reflection (X H : Type) where
  IsZero : X → Bool
  convertRest : GoValue X → Option rivertags.Field → Field H → Option (Field H)

/-- The loop `for nt.Kind() == reflect.Pointer && !vIn.IsZero()` of `convertField`: follow
non-nil pointers. -/
def derefAll {X : Type} : GoValue X → GoValue X
  | GoValue.ptr (some v) => derefAll v
  | v => v

/-- Go `reflect.Value.IsZero`. -/
def GoValue.IsZero {X H : Type} (R : Reflection X H) : GoValue X → Bool
  | GoValue.ptr none => true
  | GoValue.ptr (some _) => false
  | GoValue.secret s => decide (s = "")
  | GoValue.optionalSecret isSecret value => !isSecret && decide (value = "")
  | GoValue.other x => R.IsZero x

/-- The key `convertField` gives `nf`: the last name of the tag, if there is one. -/
def fieldKey : Option rivertags.Field → String
  | some f => if f.Name.length > 0 then f.Name.getLastD "" else ""
  | none => ""

/-- Go `convertField`; `none` for `in` is the nil interface, `none` as result is `nil`. -/
def convertField {X H : Type} (R : Reflection X H) (in_ : Option (GoValue X))
    (f : Option rivertags.Field) : Option (Field H) :=
  let nf : Field H := { Field.ofType H "attr" with Key := fieldKey f }
  match in_ with
  | none => some { nf with Value := FieldValue.field (Field.ofType H "null") }
  | some v =>
    let vIn := derefAll v
    if vIn.IsZero R then none
    else
      match vIn with
      | GoValue.secret _ =>
        let secretField : Field H :=
          { Field.ofType H "string" with Value := FieldValue.string "(secret)" }
        some { nf with Value := FieldValue.field secretField }
      | GoValue.optionalSecret isSecret value =>
        let secretField : Field H :=
          { Field.ofType H "string" with Value := FieldValue.string "(secret)" }
        let shown : Field H :=
          if !isSecret then { secretField with Value := FieldValue.string value }
          else secretField
        some { nf with Value := FieldValue.field shown }
      | _ => R.convertRest vIn f nf

/-- Go `ConvertToField`. -/
def ConvertToField {X H : Type} (R : Reflection X H) (in_ : Option (GoValue X))
    (name : String) : Option (Field H) :=
  convertField R in_ (some { Name := [name], Index := [], Flags := 0 })

/-- A reflection layer for a program without values of other types. -/
def noReflection : Reflection Empty Unit where
  IsZero _ := true
  convertRest _ _ _ := none

/-- The field `convertField` returns for a redacted or disclosed string `shown`. -/
def stringAttr (H : Type) (f : Option rivertags.Field) (shown : String) : Field H :=
  { Field.ofType H "attr" with
    Key := fieldKey f
    Value := FieldValue.field (FieldOf.mk "" "" "" "" "string" [] [] none ""
      (FieldValue.string shown)) }

/-! ## Lemmas on the loops -/

theorem Append_loop_eq_visit {V : Type} (ref : SeriesRef) (l : Labels) (t : Int) (v : float64)
    (xs : List (storage.Appender V)) (m : error) (w : V) :
    appender.Append.loop ref l t v xs m w = visit (callAppend ref l t v) xs m w := by
  induction xs generalizing m w with
  | nil => rfl
  | cons x xs ih =>
    simp only [appender.Append.loop, visit, callAppend]
    cases h : (x.Append ref l t v w).1.2 <;> simp [ih, callAppend]

theorem Commit_loop_eq_visit {V : Type} (xs : List (storage.Appender V)) (m : error) (w : V) :
    appender.Commit.loop xs m w = visit callCommit xs m w := by
  induction xs generalizing m w with
  | nil => rfl
  | cons x xs ih =>
    simp only [appender.Commit.loop, visit, callCommit]
    cases h : (x.Commit w).1 <;> simp [ih, callCommit]

theorem Rollback_loop_eq_visit {V : Type} (xs : List (storage.Appender V)) (m : error)
    (w : V) : appender.Rollback.loop xs m w = visit callRollback xs m w := by
  induction xs generalizing m w with
  | nil => rfl
  | cons x xs ih =>
    simp only [appender.Rollback.loop, visit, callRollback]
    cases h : (x.Rollback w).1 <;> simp [ih, callRollback]

/-- A visit of recorded children returns what the visit of the plain children returns, and
adds `visitEvents` to the log. -/
theorem visit_spyAs (op : Nat → Op) (call : storage.Appender (Rec W) → Rec W → error × Rec W)
    (call0 : storage.Appender W → W → error × W)
    (hcall : ∀ (j : Nat) (x : storage.Appender W) (s : Rec W), call (spy j x) s =
      ((call0 x s.1).1, ((call0 x s.1).2, s.2 ++ [{ op := op j, err := (call0 x s.1).1 }])))
    (ts : List Nat) (cs : List (storage.Appender W)) (m : error) (w : W) (log : List Event) :
    visit call (spyAs ts cs) m (w, log) =
      ((visit call0 (spyless ts cs) m w).1,
        ((visit call0 (spyless ts cs) m w).2, log ++ visitEvents op call0 ts cs w)) := by
  induction cs generalizing ts m w log with
  | nil => cases ts <;> simp [spyAs, spyless, visit, visitEvents]
  | cons x xs ih =>
    cases ts with
    | nil => simp [spyAs, spyless, visit, visitEvents]
    | cons t ts =>
      simp only [spyAs, spyless, visit, visitEvents, hcall]
      cases h : (call0 x w).1 <;> simp [ih, List.append_assoc]

/-- The operations of the events of a visit are the visited numbers, in order. -/
theorem visitEvents_ops (op : Nat → Op) (call0 : storage.Appender W → W → error × W)
    (ts : List Nat) (cs : List (storage.Appender W)) (w : W) (h : ts.length = cs.length) :
    (visitEvents op call0 ts cs w).map Event.op = ts.map op := by
  induction cs generalizing ts w with
  | nil => cases ts <;> simp_all [visitEvents]
  | cons x xs ih =>
    cases ts with
    | nil => simp at h
    | cons t ts =>
      simp only [visitEvents, List.map_cons]
      rw [ih ts _ (by simpa using h)]

/-- The error a visit returns is the fold of `multierror.Append` over the errors its
children returned. -/
theorem visit_err (op : Nat → Op) (call0 : storage.Appender W → W → error × W)
    (ts : List Nat) (cs : List (storage.Appender W)) (m : error) (w : W)
    (h : ts.length = cs.length) :
    (visit call0 cs m w).1 = aggregate m (failures (visitEvents op call0 ts cs w)) := by
  induction cs generalizing ts m w with
  | nil => cases ts <;> simp_all [visitEvents, visit, failures, aggregate]
  | cons x xs ih =>
    cases ts with
    | nil => simp at h
    | cons t ts =>
      have hl : ts.length = xs.length := by simpa using h
      simp only [visit, visitEvents]
      cases hx : (call0 x w).1 with
      | none =>
        simp only [failures, List.filterMap_cons, hx]
        exact ih ts m _ hl
      | some e =>
        simp only [failures, List.filterMap_cons, hx, aggregate]
        exact ih ts _ _ hl

theorem spyless_eq (ts : List Nat) (cs : List (storage.Appender W))
    (h : ts.length = cs.length) : spyless ts cs = cs := by
  induction cs generalizing ts with
  | nil => cases ts <;> simp [spyless]
  | cons x xs ih =>
    cases ts with
    | nil => simp at h
    | cons t ts => simp [spyless, ih ts (by simpa using h)]

theorem spyFrom_eq_spyAs (i : Nat) (cs : List (storage.Appender W)) :
    spyFrom i cs = spyAs (List.range' i cs.length) cs := by
  induction cs generalizing i with
  | nil => simp [spyFrom, spyAs]
  | cons x xs ih => simp [spyFrom, spyAs, List.range'_succ, ih]

theorem flatten_single (acc : List GoError) (e : GoError) :
    multierror.flatten acc [some e] = acc ++ contribution e := by
  cases e <;> simp [multierror.flatten, contribution]

theorem aggregate_multi (acc es : List GoError) :
    aggregate (some (GoError.multi acc)) es = some (GoError.multi (acc ++ contributions es)) := by
  induction es generalizing acc with
  | nil => simp [aggregate, contributions]
  | cons e es ih =>
    simp [aggregate, multierror.Append, flatten_single, ih, contributions, List.append_assoc]

/-- The entries of the aggregate built from nothing. -/
theorem aggregate_Errors (es : List GoError) :
    (aggregate none es).Errors = contributions es := by
  cases es with
  | nil => simp [aggregate, contributions, error.Errors]
  | cons e es =>
    simp [aggregate, multierror.Append, flatten_single, aggregate_multi, contributions,
      error.Errors]

/-- The aggregate built from nothing is nil exactly when nothing failed. -/
theorem aggregate_eq_none (es : List GoError) : aggregate none es = none ↔ es = [] := by
  cases es with
  | nil => simp [aggregate]
  | cons e es => simp [aggregate, multierror.Append, flatten_single, aggregate_multi]

theorem contributions_plain (es : List GoError) (h : ∀ e ∈ es, e.isPlain = true) :
    contributions es = es := by
  induction es with
  | nil => rfl
  | cons e es ih =>
    have he := h e (List.mem_cons_self e es)
    have ht : contributions es = es := ih (fun x hx => h x (List.mem_cons_of_mem e hx))
    cases e <;> simp_all [contributions, contribution, GoError.isPlain]

theorem failures_eq_nil (log : List Event) : failures log = [] ↔ ∀ e ∈ log, e.err = none := by
  induction log with
  | nil => simp [failures]
  | cons e es ih =>
    cases h : e.err <;> simp_all [failures, List.filterMap_cons]

/-- `Commit` on recorded children: the plain result, and the events it writes. -/
theorem Commit_spyAs (ts : List Nat) (cs : List (storage.Appender W)) (cid : String) (w : W)
    (log : List Event) (h : ts.length = cs.length) :
    appender.Commit { children := spyAs ts cs, componentID := cid } (w, log) =
      ((appender.Commit { children := cs, componentID := cid } w).1,
        { children := spyAs ts cs, componentID := cid },
        ((appender.Commit { children := cs, componentID := cid } w).2.2,
          log ++ visitEvents Op.Commit callCommit ts cs w)) := by
  simp only [appender.Commit, Commit_loop_eq_visit]
  rw [visit_spyAs Op.Commit callCommit callCommit (fun _ _ _ => rfl), spyless_eq ts cs h]

/-- `Rollback` on recorded children: the plain result, and the events it writes. -/
theorem Rollback_spyAs (ts : List Nat) (cs : List (storage.Appender W)) (cid : String) (w : W)
    (log : List Event) (h : ts.length = cs.length) :
    appender.Rollback { children := spyAs ts cs, componentID := cid } (w, log) =
      ((appender.Rollback { children := cs, componentID := cid } w).1,
        { children := spyAs ts cs, componentID := cid },
        ((appender.Rollback { children := cs, componentID := cid } w).2.2,
          log ++ visitEvents Op.Rollback callRollback ts cs w)) := by
  simp only [appender.Rollback, Rollback_loop_eq_visit]
  rw [visit_spyAs Op.Rollback callRollback callRollback (fun _ _ _ => rfl), spyless_eq ts cs h]

/-- The ref `Append` works with: the mapping's answer for an unset ref, else the ref. -/
theorem Append_ref (G : GlobalRefMap W) (a : appender W) (ref : SeriesRef) (l : Labels)
    (t : Int) (v : float64) (w : W) :
    (appender.Append G a ref l t v w).1.1 =
      if ref = 0 then (G.GetOrAddGlobalRefID l w).1 else ref := by
  simp only [appender.Append]
  split <;> rfl

/-- `Append` with a set ref on recorded children. -/
theorem Append_spyAs_set (G : GlobalRefMap W) (ts : List Nat) (cs : List (storage.Appender W))
    (cid : String) (ref : SeriesRef) (l : Labels) (t : Int) (v : float64) (w : W)
    (log : List Event) (h : ts.length = cs.length) (hr : ref ≠ 0) :
    appender.Append (spyRefMap G) { children := spyAs ts cs, componentID := cid } ref l t v
        (w, log) =
      ((appender.Append G { children := cs, componentID := cid } ref l t v w).1,
        { children := spyAs ts cs, componentID := cid },
        ((appender.Append G { children := cs, componentID := cid } ref l t v w).2.2,
          log ++ visitEvents (fun j => Op.Append j ref l t v) (callAppend ref l t v) ts cs w)) := by
  simp only [appender.Append, Append_loop_eq_visit, if_neg hr]
  rw [visit_spyAs (fun j => Op.Append j ref l t v) (callAppend ref l t v) (callAppend ref l t v)
    (fun _ _ _ => rfl), spyless_eq ts cs h]

/-- `Append` with the unset ref on recorded children: the lookup comes first. -/
theorem Append_spyAs_unset (G : GlobalRefMap W) (ts : List Nat)
    (cs : List (storage.Appender W)) (cid : String) (l : Labels) (t : Int) (v : float64)
    (w : W) (log : List Event) (h : ts.length = cs.length) :
    appender.Append (spyRefMap G) { children := spyAs ts cs, componentID := cid } 0 l t v
        (w, log) =
      ((appender.Append G { children := cs, componentID := cid } 0 l t v w).1,
        { children := spyAs ts cs, componentID := cid },
        ((appender.Append G { children := cs, componentID := cid } 0 l t v w).2.2,
          log ++ { op := Op.GetOrAddGlobalRefID l, err := none } ::
            visitEvents (fun j => Op.Append j (G.GetOrAddGlobalRefID l w).1 l t v)
              (callAppend (G.GetOrAddGlobalRefID l w).1 l t v) ts cs
              (G.GetOrAddGlobalRefID l w).2)) := by
  simp only [appender.Append, Append_loop_eq_visit, if_true, spyRefMap]
  rw [visit_spyAs (fun j => Op.Append j (G.GetOrAddGlobalRefID l w).1 l t v)
    (callAppend (G.GetOrAddGlobalRefID l w).1 l t v)
    (callAppend (G.GetOrAddGlobalRefID l w).1 l t v) (fun _ _ _ => rfl), spyless_eq ts cs h]
  simp [List.append_assoc]

theorem spyAs_length (ts : List Nat) (cs : List (storage.Appender W))
    (h : ts.length = cs.length) : (spyAs ts cs).length = cs.length := by
  induction cs generalizing ts with
  | nil => cases ts <;> simp [spyAs]
  | cons c cs ih =>
    cases ts with
    | nil => simp at h
    | cons u us => simp [spyAs, ih us (by simpa using h)]

theorem spyAs_snoc (ts : List Nat) (cs : List (storage.Appender W)) (t : Nat)
    (x : storage.Appender W) (h : ts.length = cs.length) :
    spyAs (ts ++ [t]) (cs ++ [x]) = spyAs ts cs ++ [spy t x] := by
  induction cs generalizing ts with
  | nil => cases ts <;> simp_all [spyAs]
  | cons c cs ih =>
    cases ts with
    | nil => simp at h
    | cons u us => simp [spyAs, ih us (by simpa using h)]

/-- The loop of `Fanout.Appender` is the specification `openAll`, after what was there. -/
theorem Appender_loop_eq_openAll (ctx : Context) (ds : List (Option (storage.Appendable W)))
    (acc : List (storage.Appender W)) (w : W) :
    Fanout.Appender.loop ctx ds acc w = (acc ++ (openAll ctx ds w).1, (openAll ctx ds w).2) := by
  induction ds generalizing acc w with
  | nil => simp [Fanout.Appender.loop, openAll]
  | cons d ds ih =>
    cases d with
    | none => simp [Fanout.Appender.loop, openAll, ih]
    | some x => simp [Fanout.Appender.loop, openAll, ih, List.append_assoc]

theorem openAll_length (ctx : Context) (ds : List (Option (storage.Appendable W))) (w : W)
    (i : Nat) : (openAll ctx ds w).1.length = (liveDests i ds).length := by
  induction ds generalizing w i with
  | nil => simp [openAll, liveDests]
  | cons d ds ih =>
    cases d with
    | none => simpa [openAll, liveDests] using ih w (i + 1)
    | some x => simpa [openAll, liveDests] using ih _ (i + 1)

theorem liveDests_length {α : Type} (i : Nat) (ds : List (Option α)) :
    (liveDests i ds).length = (ds.filter Option.isSome).length := by
  induction ds generalizing i with
  | nil => simp [liveDests]
  | cons d ds ih =>
    cases d with
    | none => simpa [liveDests] using ih (i + 1)
    | some x => simpa [liveDests] using ih (i + 1)

theorem liveDests_ge {α : Type} (i : Nat) (ds : List (Option α)) :
    ∀ j ∈ liveDests i ds, i ≤ j ∧ j < i + ds.length := by
  induction ds generalizing i with
  | nil => simp [liveDests]
  | cons d ds ih =>
    intro j hj
    cases d with
    | none =>
      have := ih (i + 1) j (by simpa [liveDests] using hj)
      simp only [List.length_cons]; omega
    | some x =>
      simp only [liveDests, List.mem_cons] at hj
      rcases hj with rfl | hj
      · simp only [List.length_cons]; omega
      · have := ih (i + 1) j hj
        simp only [List.length_cons]; omega

/-- The loop of `Fanout.Appender` on recorded destinations: the plain children, recorded
under the numbers of their destinations, and one factory event per non-nil destination. -/
theorem Appender_loop_spyDests (ctx : Context) (i : Nat)
    (ds : List (Option (storage.Appendable W))) (ts : List Nat)
    (acc : List (storage.Appender W)) (w : W) (log : List Event)
    (h : ts.length = acc.length) :
    Fanout.Appender.loop ctx (spyDests i ds) (spyAs ts acc) (w, log) =
      (spyAs (ts ++ liveDests i ds) (Fanout.Appender.loop ctx ds acc w).1,
        ((Fanout.Appender.loop ctx ds acc w).2,
          log ++ (liveDests i ds).map (fun j => { op := Op.Appender j ctx, err := none }))) := by
  induction ds generalizing i ts acc w log with
  | nil => simp [Fanout.Appender.loop, spyDests, liveDests]
  | cons d ds ih =>
    cases d with
    | none =>
      simp only [Fanout.Appender.loop, spyDests, liveDests]
      exact ih (i + 1) ts acc w log h
    | some x =>
      simp only [Fanout.Appender.loop, spyDests, liveDests, spyAppendable]
      rw [← spyAs_snoc ts acc i (x.Appender ctx w).1 h,
        ih (i + 1) (ts ++ [i]) (acc ++ [(x.Appender ctx w).1]) (x.Appender ctx w).2 _
          (by simp [h])]
      simp [List.append_assoc]

/-- `Fanout.Appender` on recorded destinations. -/
theorem Appender_spyDests (i : Nat) (ds : List (Option (storage.Appendable W)))
    (cid : String) (ctx : Context) (w : W) (log : List Event) :
    (Fanout.Appender { children := spyDests i ds, componentID := cid } ctx (w, log)) =
      ({ children := spyAs (liveDests i ds)
            (Fanout.Appender { children := ds, componentID := cid } ctx w).1.children,
          componentID := cid },
        { children := spyDests i ds, componentID := cid },
        ((Fanout.Appender { children := ds, componentID := cid } ctx w).2.2,
          log ++ (liveDests i ds).map (fun j =>
            { op := Op.Appender j (ContextValue.metricMetadataStore :: ContextValue.target :: ctx),
              err := none }))) := by
  simp only [Fanout.Appender, scrape.ContextWithTarget, scrape.ContextWithMetricMetadataStore]
  have h := Appender_loop_spyDests
    (ContextValue.metricMetadataStore :: ContextValue.target :: ctx) i ds [] [] w log rfl
  simp only [spyAs, List.nil_append] at h
  rw [h]

theorem Appender_children_length (ds : List (Option (storage.Appendable W))) (cid : String)
    (ctx : Context) (w : W) (i : Nat) :
    (Fanout.Appender { children := ds, componentID := cid } ctx w).1.children.length =
      (liveDests i ds).length := by
  simp only [Fanout.Appender, Appender_loop_eq_openAll, List.nil_append]
  exact openAll_length _ ds w i

theorem ops_append (a b : List Event) : ops (a ++ b) = ops a ++ ops b := by
  simp [ops]

/-- Everything `Commit` calls on children recorded under `ts`, in order. -/
theorem Commit_ops_spyAs (ts : List Nat) (cs : List (storage.Appender W)) (cid : String)
    (w : W) (log : List Event) (h : ts.length = cs.length) :
    ops (appender.Commit { children := spyAs ts cs, componentID := cid } (w, log)).2.2.2 =
      ops log ++ ts.map Op.Commit := by
  rw [Commit_spyAs ts cs cid w log h, ops_append]
  simp only [ops, visitEvents_ops Op.Commit callCommit ts cs w h]

/-- Everything `Rollback` calls on children recorded under `ts`, in order. -/
theorem Rollback_ops_spyAs (ts : List Nat) (cs : List (storage.Appender W)) (cid : String)
    (w : W) (log : List Event) (h : ts.length = cs.length) :
    ops (appender.Rollback { children := spyAs ts cs, componentID := cid } (w, log)).2.2.2 =
      ops log ++ ts.map Op.Rollback := by
  rw [Rollback_spyAs ts cs cid w log h, ops_append]
  simp only [ops, visitEvents_ops Op.Rollback callRollback ts cs w h]

/-- Everything `Append` calls on children recorded under `ts`, in order. -/
theorem Append_ops_spyAs (G : GlobalRefMap W) (ts : List Nat) (cs : List (storage.Appender W))
    (cid : String) (ref : SeriesRef) (l : Labels) (t : Int) (v : float64) (w : W)
    (log : List Event) (h : ts.length = cs.length) :
    ops (appender.Append (spyRefMap G) { children := spyAs ts cs, componentID := cid }
        ref l t v (w, log)).2.2.2 =
      ops log ++ ((if ref = 0 then [Op.GetOrAddGlobalRefID l] else []) ++
        ts.map (fun i =>
          Op.Append i (if ref = 0 then (G.GetOrAddGlobalRefID l w).1 else ref) l t v)) := by
  by_cases hr : ref = 0
  · subst hr
    rw [Append_spyAs_unset G ts cs cid l t v w log h, ops_append]
    simp only [if_true, List.singleton_append]
    rw [← visitEvents_ops (fun i => Op.Append i (G.GetOrAddGlobalRefID l w).1 l t v)
      (callAppend (G.GetOrAddGlobalRefID l w).1 l t v) ts cs (G.GetOrAddGlobalRefID l w).2 h]
    rfl
  · rw [Append_spyAs_set G ts cs cid ref l t v w log h hr, ops_append]
    simp only [if_neg hr, List.nil_append]
    rw [← visitEvents_ops (fun i => Op.Append i ref l t v) (callAppend ref l t v) ts cs w h]
    rfl

theorem Commit_ops (cs : List (storage.Appender W)) (cid : String) (w : W)
    (log : List Event) :
    ops (appender.Commit { children := spyFrom 0 cs, componentID := cid } (w, log)).2.2.2 =
      ops log ++ (List.range cs.length).map Op.Commit := by
  rw [spyFrom_eq_spyAs, Commit_ops_spyAs _ cs cid w log (by simp), List.range_eq_range']

theorem Rollback_ops (cs : List (storage.Appender W)) (cid : String) (w : W)
    (log : List Event) :
    ops (appender.Rollback { children := spyFrom 0 cs, componentID := cid } (w, log)).2.2.2 =
      ops log ++ (List.range cs.length).map Op.Rollback := by
  rw [spyFrom_eq_spyAs, Rollback_ops_spyAs _ cs cid w log (by simp), List.range_eq_range']

theorem Append_ops (G : GlobalRefMap W) (cs : List (storage.Appender W))
    (cid : String) (ref : SeriesRef) (l : Labels) (t : Int) (v : float64) (w : W)
    (log : List Event) :
    ops (appender.Append (spyRefMap G) { children := spyFrom 0 cs, componentID := cid }
        ref l t v (w, log)).2.2.2 =
      ops log ++ ((if ref = 0 then [Op.GetOrAddGlobalRefID l] else []) ++
        (List.range cs.length).map (fun i =>
          Op.Append i (if ref = 0 then (G.GetOrAddGlobalRefID l w).1 else ref) l t v)) := by
  rw [spyFrom_eq_spyAs, Append_ops_spyAs G _ cs cid ref l t v w log (by simp),
    List.range_eq_range']

/-- The error `Commit` returns on recorded children is the fold of `multierror.Append` over
the errors in the log it wrote. -/
theorem Commit_err (cs : List (storage.Appender W)) (cid : String) (w : W) :
    (appender.Commit { children := spyFrom 0 cs, componentID := cid } (w, [])).1 =
      aggregate none (failures
        (appender.Commit { children := spyFrom 0 cs, componentID := cid } (w, [])).2.2.2) := by
  rw [spyFrom_eq_spyAs, Commit_spyAs _ cs cid w [] (by simp)]
  simp only [List.nil_append, appender.Commit, Commit_loop_eq_visit]
  exact visit_err Op.Commit callCommit _ cs none w (by simp)

/-- The same for `Rollback`. -/
theorem Rollback_err (cs : List (storage.Appender W)) (cid : String) (w : W) :
    (appender.Rollback { children := spyFrom 0 cs, componentID := cid } (w, [])).1 =
      aggregate none (failures
        (appender.Rollback { children := spyFrom 0 cs, componentID := cid } (w, [])).2.2.2) := by
  rw [spyFrom_eq_spyAs, Rollback_spyAs _ cs cid w [] (by simp)]
  simp only [List.nil_append, appender.Rollback, Rollback_loop_eq_visit]
  exact visit_err Op.Rollback callRollback _ cs none w (by simp)

/-- The same for `Append`. -/
theorem Append_err (G : GlobalRefMap W) (cs : List (storage.Appender W)) (cid : String)
    (ref : SeriesRef) (l : Labels) (t : Int) (v : float64) (w : W) :
    (appender.Append (spyRefMap G) { children := spyFrom 0 cs, componentID := cid }
        ref l t v (w, [])).1.2 =
      aggregate none (failures
        (appender.Append (spyRefMap G) { children := spyFrom 0 cs, componentID := cid }
          ref l t v (w, [])).2.2.2) := by
  rw [spyFrom_eq_spyAs]
  by_cases hr : ref = 0
  · subst hr
    rw [Append_spyAs_unset G _ cs cid l t v w [] (by simp)]
    simp only [List.nil_append, appender.Append, Append_loop_eq_visit, if_true, failures,
      List.filterMap_cons]
    exact visit_err _ (callAppend (G.GetOrAddGlobalRefID l w).1 l t v) _ cs none _ (by simp)
  · rw [Append_spyAs_set G _ cs cid ref l t v w [] (by simp) hr]
    simp only [List.nil_append, appender.Append, Append_loop_eq_visit, if_neg hr]
    exact visit_err _ (callAppend ref l t v) _ cs none w (by simp)

/-- A visit of children none of which ever fails leaves the error as it was. -/
theorem visit_of_forall_none {V : Type} (call : storage.Appender V → V → error × V)
    (cs : List (storage.Appender V)) (m : error) (w : V)
    (h : ∀ x ∈ cs, ∀ u, (call x u).1 = none) : (visit call cs m w).1 = m := by
  induction cs generalizing m w with
  | nil => rfl
  | cons x xs ih =>
    simp only [visit, h x (List.mem_cons_self x xs) w]
    exact ih m _ (fun y hy => h y (List.mem_cons_of_mem x hy))

/-- An error once collected is never lost. -/
theorem visit_ne_none {V : Type} (call : storage.Appender V → V → error × V)
    (cs : List (storage.Appender V)) (m : error) (w : V) (h : m ≠ none) :
    (visit call cs m w).1 ≠ none := by
  induction cs generalizing m w with
  | nil => exact h
  | cons x xs ih =>
    simp only [visit]
    cases hx : (call x w).1 with
    | none => exact ih m _ h
    | some e => exact ih _ _ (by simp)

/-- A visit of children one of which always fails returns an error. -/
theorem visit_of_exists_some {V : Type} (call : storage.Appender V → V → error × V)
    (cs : List (storage.Appender V)) (m : error) (w : V)
    (h : ∃ x ∈ cs, ∀ u, (call x u).1 ≠ none) : (visit call cs m w).1 ≠ none := by
  induction cs generalizing m w with
  | nil => simp at h
  | cons x xs ih =>
    obtain ⟨y, hy, hf⟩ := h
    simp only [visit]
    rcases List.mem_cons.mp hy with rfl | hy
    · cases hx : (call y w).1 with
      | none => exact absurd hx (hf w)
      | some e => exact visit_ne_none call xs _ _ (by simp)
    · cases hx : (call x w).1 with
      | none => exact ih m _ ⟨y, hy, hf⟩
      | some e => exact ih _ _ ⟨y, hy, hf⟩

/-- A visit of children that fail with the errors `errs` folds those errors, in order. -/
theorem visit_failing {V : Type} (call : storage.Appender V → V → error × V)
    (hcall : ∀ (e : GoError) (u : V), call (failing e) u = (some e, u))
    (errs : List GoError) (m : error) (w : V) :
    visit call (errs.map failing) m w = (aggregate m errs, w) := by
  induction errs generalizing m with
  | nil => rfl
  | cons e es ih => simp only [List.map_cons, visit, hcall, aggregate, ih]

/-- `Commit` on recorded children from any log: the error and the events written. -/
theorem Commit_from (cs : List (storage.Appender W)) (cid : String) (w : W)
    (log : List Event) :
    (appender.Commit { children := spyFrom 0 cs, componentID := cid } (w, log)).1 =
        (appender.Commit { children := cs, componentID := cid } w).1 ∧
      (appender.Commit { children := spyFrom 0 cs, componentID := cid } (w, log)).1 =
        aggregate none (failures
          ((appender.Commit { children := spyFrom 0 cs, componentID := cid }
            (w, log)).2.2.2.drop log.length)) := by
  rw [spyFrom_eq_spyAs, Commit_spyAs _ cs cid w log (by simp)]
  refine ⟨rfl, ?_⟩
  simp only [List.drop_left, appender.Commit, Commit_loop_eq_visit]
  exact visit_err Op.Commit callCommit _ cs none w (by simp)

/-- `Rollback` on recorded children from any log: the error and the events written. -/
theorem Rollback_from (cs : List (storage.Appender W)) (cid : String) (w : W)
    (log : List Event) :
    (appender.Rollback { children := spyFrom 0 cs, componentID := cid } (w, log)).1 =
        (appender.Rollback { children := cs, componentID := cid } w).1 ∧
      (appender.Rollback { children := spyFrom 0 cs, componentID := cid } (w, log)).1 =
        aggregate none (failures
          ((appender.Rollback { children := spyFrom 0 cs, componentID := cid }
            (w, log)).2.2.2.drop log.length)) := by
  rw [spyFrom_eq_spyAs, Rollback_spyAs _ cs cid w log (by simp)]
  refine ⟨rfl, ?_⟩
  simp only [List.drop_left, appender.Rollback, Rollback_loop_eq_visit]
  exact visit_err Op.Rollback callRollback _ cs none w (by simp)

/-- `Append` on recorded children from any log: the result and the events written. -/
theorem Append_from (G : GlobalRefMap W) (cs : List (storage.Appender W)) (cid : String)
    (ref : SeriesRef) (l : Labels) (t : Int) (v : float64) (w : W) (log : List Event) :
    (appender.Append (spyRefMap G) { children := spyFrom 0 cs, componentID := cid }
        ref l t v (w, log)).1 =
        (appender.Append G { children := cs, componentID := cid } ref l t v w).1 ∧
      (appender.Append (spyRefMap G) { children := spyFrom 0 cs, componentID := cid }
        ref l t v (w, log)).1.2 =
        aggregate none (failures
          ((appender.Append (spyRefMap G) { children := spyFrom 0 cs, componentID := cid }
            ref l t v (w, log)).2.2.2.drop log.length)) := by
  rw [spyFrom_eq_spyAs]
  by_cases hr : ref = 0
  · subst hr
    rw [Append_spyAs_unset G _ cs cid l t v w log (by simp)]
    refine ⟨rfl, ?_⟩
    simp only [List.drop_left, appender.Append, Append_loop_eq_visit, if_true, failures,
      List.filterMap_cons]
    exact visit_err _ (callAppend (G.GetOrAddGlobalRefID l w).1 l t v) _ cs none _ (by simp)
  · rw [Append_spyAs_set G _ cs cid ref l t v w log (by simp) hr]
    refine ⟨rfl, ?_⟩
    simp only [List.drop_left, appender.Append, Append_loop_eq_visit, if_neg hr]
    exact visit_err _ (callAppend ref l t v) _ cs none w (by simp)

/-- The returned error is nil exactly when no event written by the call carries one. -/
theorem aggregate_failures_eq_none (log : List Event) :
    aggregate none (failures log) = none ↔ ∀ e ∈ log, e.err = none := by
  rw [aggregate_eq_none, failures_eq_nil]

/-! ## The claims -/

/-- C1: `Append` on a transaction with any children calls `Append` of every child exactly
once, in the order of the child list, with the resolved ref and the same labels, timestamp
and value, whatever the children return; apart from the lookup that resolves an unset ref,
nothing else is called, so no child sees a `Commit` or a `Rollback`. -/
theorem Append_delivers_to_every_child (G : GlobalRefMap W) (cs : List (storage.Appender W))
    (cid : String) (ref : SeriesRef) (l : Labels) (t : Int) (v : float64) (w : W) :
    ops (appender.Append (spyRefMap G) { children := spyFrom 0 cs, componentID := cid }
        ref l t v (w, [])).2.2.2 =
      (if ref = 0 then [Op.GetOrAddGlobalRefID l] else []) ++
        (List.range cs.length).map (fun i =>
          Op.Append i (if ref = 0 then (G.GetOrAddGlobalRefID l w).1 else ref) l t v) := by
  simpa [ops] using Append_ops G cs cid ref l t v w []

/-- C4: `Append` returns the ref it resolved, whatever the children do and return: the
answer of `GetOrAddGlobalRefID` for the labels when the given ref is unset (0), the given
ref otherwise; the ref mapping is looked up once in the first case and not at all in the
second. -/
theorem Append_returns_resolved_ref (G : GlobalRefMap W) (cs : List (storage.Appender W))
    (cid : String) (ref : SeriesRef) (l : Labels) (t : Int) (v : float64) (w : W) :
    (appender.Append G { children := cs, componentID := cid } ref l t v w).1.1 =
        (if ref = 0 then (G.GetOrAddGlobalRefID l w).1 else ref) ∧
      (appender.Append (spyRefMap G) { children := spyFrom 0 cs, componentID := cid }
        ref l t v (w, [])).1.1 =
        (if ref = 0 then (G.GetOrAddGlobalRefID l w).1 else ref) ∧
      (ops (appender.Append (spyRefMap G) { children := spyFrom 0 cs, componentID := cid }
        ref l t v (w, [])).2.2.2).filter Op.isLookup =
        (if ref = 0 then [Op.GetOrAddGlobalRefID l] else []) := by
  refine ⟨Append_ref G _ ref l t v w, ?_, ?_⟩
  · rw [Append_ref]
    by_cases hr : ref = 0 <;> simp [hr, spyRefMap]
  · rw [Append_ops G cs cid ref l t v w []]
    by_cases hr : ref = 0 <;>
      simp [hr, ops, List.filter_append, List.filter_map, Op.isLookup, Function.comp_def]

/-- C6: `AppendExemplar` and `UpdateMetadata` return a non-nil error saying the operation is
not supported, whatever the children and the arguments, and call nothing: the world and
the log of calls are as before. -/
theorem exemplar_and_metadata_unsupported (cs : List (storage.Appender W)) (cid : String)
    (ref : SeriesRef) (l : Labels) (e : Exemplar) (m : Metadata) (w : W) (log : List Event) :
    appender.AppendExemplar { children := spyFrom 0 cs, componentID := cid } ref l e (w, log) =
        ((0, some (GoError.plain "appendExemplar not supported yet")),
          { children := spyFrom 0 cs, componentID := cid }, (w, log)) ∧
      appender.UpdateMetadata { children := spyFrom 0 cs, componentID := cid } ref l m (w, log) =
        ((0, some (GoError.plain "updateMetadata not supported yet")),
          { children := spyFrom 0 cs, componentID := cid }, (w, log)) ∧
      (appender.AppendExemplar { children := cs, componentID := cid } ref l e w).1.2 ≠ none ∧
      (appender.UpdateMetadata { children := cs, componentID := cid } ref l m w).1.2 ≠ none ∧
      (appender.AppendExemplar { children := cs, componentID := cid } ref l e w).2.2 = w ∧
      (appender.UpdateMetadata { children := cs, componentID := cid } ref l m w).2.2 = w := by
  simp [appender.AppendExemplar, appender.UpdateMetadata]

/-- C7: `Commit` calls `Commit` of every child exactly once, in the order of the child list,
and nothing else; `Rollback` calls `Rollback` of every child exactly once, in that order,
and nothing else; whatever the children return. -/
theorem Commit_Rollback_reach_every_child (cs : List (storage.Appender W)) (cid : String)
    (w : W) :
    ops (appender.Commit { children := spyFrom 0 cs, componentID := cid } (w, [])).2.2.2 = (List.range cs.length).map Op.Commit ∧
      ops (appender.Rollback { children := spyFrom 0 cs, componentID := cid } (w, [])).2.2.2 = (List.range cs.length).map Op.Rollback := by
  refine ⟨?_, ?_⟩
  · simpa [ops] using Commit_ops cs cid w []
  · simpa [ops] using Rollback_ops cs cid w []

/-- C8: for `Append`, `Commit` and `Rollback` on any children: every child is called once, in
list order, and the returned error is nil exactly when none of these calls returned an
error; recording changes nothing, the plain transaction returns the same error.  Hence a
transaction whose children never fail returns nil, one with a child that always fails
does not, and `Commit` on a transaction without children returns nil. -/
theorem error_nil_iff_no_child_failed (G : GlobalRefMap W) (cs : List (storage.Appender W))
    (cid : String) (ref : SeriesRef) (l : Labels) (t : Int) (v : float64) (w : W) :
    (ops (appender.Append (spyRefMap G) { children := spyFrom 0 cs, componentID := cid }
        ref l t v (w, [])).2.2.2 = ((if ref = 0 then [Op.GetOrAddGlobalRefID l] else []) ++
        (List.range cs.length).map (fun i =>
          Op.Append i (if ref = 0 then (G.GetOrAddGlobalRefID l w).1 else ref) l t v)) ∧
      ((appender.Append (spyRefMap G) { children := spyFrom 0 cs, componentID := cid }
        ref l t v (w, [])).1.2 = none ↔ ∀ e ∈ (appender.Append (spyRefMap G) { children := spyFrom 0 cs, componentID := cid }
        ref l t v (w, [])).2.2.2, e.err = none) ∧
      (appender.Append G { children := cs, componentID := cid } ref l t v w).1.2 = (appender.Append (spyRefMap G) { children := spyFrom 0 cs, componentID := cid }
        ref l t v (w, [])).1.2) ∧
    (ops (appender.Commit { children := spyFrom 0 cs, componentID := cid } (w, [])).2.2.2 = (List.range cs.length).map Op.Commit ∧
      ((appender.Commit { children := spyFrom 0 cs, componentID := cid } (w, [])).1 = none ↔ ∀ e ∈ (appender.Commit { children := spyFrom 0 cs, componentID := cid } (w, [])).2.2.2, e.err = none) ∧
      (appender.Commit { children := cs, componentID := cid } w).1 = (appender.Commit { children := spyFrom 0 cs, componentID := cid } (w, [])).1) ∧
    (ops (appender.Rollback { children := spyFrom 0 cs, componentID := cid } (w, [])).2.2.2 = (List.range cs.length).map Op.Rollback ∧
      ((appender.Rollback { children := spyFrom 0 cs, componentID := cid } (w, [])).1 = none ↔ ∀ e ∈ (appender.Rollback { children := spyFrom 0 cs, componentID := cid } (w, [])).2.2.2, e.err = none) ∧
      (appender.Rollback { children := cs, componentID := cid } w).1 = (appender.Rollback { children := spyFrom 0 cs, componentID := cid } (w, [])).1) ∧
    (((∀ x ∈ cs, ∀ r u, (x.Append r l t v u).1.2 = none) → (appender.Append G { children := cs, componentID := cid } ref l t v w).1.2 = none) ∧
      ((∃ x ∈ cs, ∀ r u, (x.Append r l t v u).1.2 ≠ none) → (appender.Append G { children := cs, componentID := cid } ref l t v w).1.2 ≠ none)) ∧
    (((∀ x ∈ cs, ∀ u, (x.Commit u).1 = none) → (appender.Commit { children := cs, componentID := cid } w).1 = none) ∧
      ((∃ x ∈ cs, ∀ u, (x.Commit u).1 ≠ none) → (appender.Commit { children := cs, componentID := cid } w).1 ≠ none)) ∧
    (((∀ x ∈ cs, ∀ u, (x.Rollback u).1 = none) → (appender.Rollback { children := cs, componentID := cid } w).1 = none) ∧
      ((∃ x ∈ cs, ∀ u, (x.Rollback u).1 ≠ none) → (appender.Rollback { children := cs, componentID := cid } w).1 ≠ none)) ∧
    (appender.Commit { children := ([] : List (storage.Appender W)), componentID := cid }
      w).1 = none := by
  refine ⟨⟨?_, ?_, ?_⟩, ⟨?_, ?_, ?_⟩, ⟨?_, ?_, ?_⟩, ⟨?_, ?_⟩, ⟨?_, ?_⟩, ⟨?_, ?_⟩, rfl⟩
  · simpa [ops] using Append_ops G cs cid ref l t v w []
  · rw [Append_err, aggregate_eq_none, failures_eq_nil]
  · rw [(Append_from G cs cid ref l t v w []).1]
  · simpa [ops] using Commit_ops cs cid w []
  · rw [Commit_err, aggregate_eq_none, failures_eq_nil]
  · rw [(Commit_from cs cid w []).1]
  · simpa [ops] using Rollback_ops cs cid w []
  · rw [Rollback_err, aggregate_eq_none, failures_eq_nil]
  · rw [(Rollback_from cs cid w []).1]
  · intro h
    simp only [appender.Append, Append_loop_eq_visit]
    exact visit_of_forall_none _ cs none _ (fun x hx u => h x hx _ u)
  · intro h
    obtain ⟨x, hx, hf⟩ := h
    simp only [appender.Append, Append_loop_eq_visit]
    exact visit_of_exists_some _ cs none _ ⟨x, hx, fun u => hf _ u⟩
  · intro h
    simp only [appender.Commit, Commit_loop_eq_visit]
    exact visit_of_forall_none callCommit cs none _ h
  · intro h
    simp only [appender.Commit, Commit_loop_eq_visit]
    exact visit_of_exists_some callCommit cs none _ h
  · intro h
    simp only [appender.Rollback, Rollback_loop_eq_visit]
    exact visit_of_forall_none callRollback cs none _ h
  · intro h
    simp only [appender.Rollback, Rollback_loop_eq_visit]
    exact visit_of_exists_some callRollback cs none _ h

/-- The design's example: destinations A and B, of which B fails every `Append` with
"disk full"; the `Append` returns an error. -/
theorem error_nil_iff_no_child_failed_witness :
    (∃ x ∈ ([accepting, failing (GoError.plain "disk full")] : List (storage.Appender Unit)),
        ∀ r u, (x.Append r [("job", "x")] 1000 3 u).1.2 ≠ none) ∧
      (appender.Append (constRefMap 1)
        { children := [accepting, failing (GoError.plain "disk full")], componentID := "c" }
        0 [("job", "x")] 1000 3 ()).1.2 ≠ none :=
  have h : ∃ x ∈ ([accepting, failing (GoError.plain "disk full")] :
      List (storage.Appender Unit)),
      ∀ r u, (x.Append r [("job", "x")] 1000 3 u).1.2 ≠ none :=
    ⟨failing (GoError.plain "disk full"), by simp, fun _ _ => by simp [failing]⟩
  ⟨h, (error_nil_iff_no_child_failed (constRefMap 1)
    [accepting, failing (GoError.plain "disk full")] "c" 0 [("job", "x")] 1000 3
    ()).2.2.2.1.2 h⟩

/-- C2, refuted as stated: a transaction whose one child is itself a fan-out transaction over
two failing children.  The child fails once, with an aggregate of two errors; the returned
aggregate lists those two errors, not the one error the child returned. -/
theorem nested_aggregate_is_flattened :
    (appender.Append (spyRefMap (constRefMap 1))
        { children := spyFrom 0 [appender.toAppender (constRefMap 1)
            { children := [failing (GoError.plain "disk full"),
                failing (GoError.plain "queue closed")], componentID := "inner" }],
          componentID := "outer" } 7 [("job", "x")] 1000 3 ((), [])).1.2.Errors =
        [GoError.plain "disk full", GoError.plain "queue closed"] ∧
      failures (appender.Append (spyRefMap (constRefMap 1))
        { children := spyFrom 0 [appender.toAppender (constRefMap 1)
            { children := [failing (GoError.plain "disk full"),
                failing (GoError.plain "queue closed")], componentID := "inner" }],
          componentID := "outer" } 7 [("job", "x")] 1000 3 ((), [])).2.2.2 =
        [GoError.multi [GoError.plain "disk full", GoError.plain "queue closed"]] ∧
      (appender.Append (spyRefMap (constRefMap 1))
        { children := spyFrom 0 [appender.toAppender (constRefMap 1)
            { children := [failing (GoError.plain "disk full"),
                failing (GoError.plain "queue closed")], componentID := "inner" }],
          componentID := "outer" } 7 [("job", "x")] 1000 3 ((), [])).1.2.Errors ≠
        failures (appender.Append (spyRefMap (constRefMap 1))
        { children := spyFrom 0 [appender.toAppender (constRefMap 1)
            { children := [failing (GoError.plain "disk full"),
                failing (GoError.plain "queue closed")], componentID := "inner" }],
          componentID := "outer" } 7 [("job", "x")] 1000 3 ((), [])).2.2.2 := by
  refine ⟨rfl, rfl, ?_⟩
  intro h
  have hl := congrArg List.length h
  revert hl
  decide

/-- C2, amended: for `Append`, `Commit` and `Rollback` on any children, every child is called
once, in list order, and the `Errors` of the returned aggregate are, in that order, what
each failing call contributes: its own entries when the child's error is itself a
`*multierror.Error`, the error itself otherwise.  When no failing child returned a
`*multierror.Error`, the `Errors` are exactly the errors the failing children returned, in
order, one for each.  Recording changes nothing: the plain transaction returns the same
error.  In particular, on children that fail with the errors `errs`, the `Errors` are what
`errs` contribute, in the order of `errs`. -/
theorem aggregate_keeps_child_errors (G : GlobalRefMap W) (cs : List (storage.Appender W))
    (cid : String) (ref : SeriesRef) (l : Labels) (t : Int) (v : float64) (w : W)
    (errs : List GoError) :
    (ops (appender.Append (spyRefMap G) { children := spyFrom 0 cs, componentID := cid }
        ref l t v (w, [])).2.2.2 = ((if ref = 0 then [Op.GetOrAddGlobalRefID l] else []) ++
        (List.range cs.length).map (fun i =>
          Op.Append i (if ref = 0 then (G.GetOrAddGlobalRefID l w).1 else ref) l t v)) ∧
      (appender.Append (spyRefMap G) { children := spyFrom 0 cs, componentID := cid }
        ref l t v (w, [])).1.2.Errors = contributions (failures (appender.Append (spyRefMap G) { children := spyFrom 0 cs, componentID := cid }
        ref l t v (w, [])).2.2.2) ∧
      ((∀ e ∈ failures (appender.Append (spyRefMap G) { children := spyFrom 0 cs, componentID := cid }
        ref l t v (w, [])).2.2.2, e.isPlain = true) →
        (appender.Append (spyRefMap G) { children := spyFrom 0 cs, componentID := cid }
        ref l t v (w, [])).1.2.Errors = failures (appender.Append (spyRefMap G) { children := spyFrom 0 cs, componentID := cid }
        ref l t v (w, [])).2.2.2) ∧
      (appender.Append G { children := cs, componentID := cid } ref l t v w).1.2 = (appender.Append (spyRefMap G) { children := spyFrom 0 cs, componentID := cid }
        ref l t v (w, [])).1.2) ∧
    (ops (appender.Commit { children := spyFrom 0 cs, componentID := cid } (w, [])).2.2.2 = (List.range cs.length).map Op.Commit ∧
      (appender.Commit { children := spyFrom 0 cs, componentID := cid } (w, [])).1.Errors = contributions (failures (appender.Commit { children := spyFrom 0 cs, componentID := cid } (w, [])).2.2.2) ∧
      ((∀ e ∈ failures (appender.Commit { children := spyFrom 0 cs, componentID := cid } (w, [])).2.2.2, e.isPlain = true) →
        (appender.Commit { children := spyFrom 0 cs, componentID := cid } (w, [])).1.Errors = failures (appender.Commit { children := spyFrom 0 cs, componentID := cid } (w, [])).2.2.2) ∧
      (appender.Commit { children := cs, componentID := cid } w).1 = (appender.Commit { children := spyFrom 0 cs, componentID := cid } (w, [])).1) ∧
    (ops (appender.Rollback { children := spyFrom 0 cs, componentID := cid } (w, [])).2.2.2 = (List.range cs.length).map Op.Rollback ∧
      (appender.Rollback { children := spyFrom 0 cs, componentID := cid } (w, [])).1.Errors = contributions (failures (appender.Rollback { children := spyFrom 0 cs, componentID := cid } (w, [])).2.2.2) ∧
      ((∀ e ∈ failures (appender.Rollback { children := spyFrom 0 cs, componentID := cid } (w, [])).2.2.2, e.isPlain = true) →
        (appender.Rollback { children := spyFrom 0 cs, componentID := cid } (w, [])).1.Errors = failures (appender.Rollback { children := spyFrom 0 cs, componentID := cid } (w, [])).2.2.2) ∧
      (appender.Rollback { children := cs, componentID := cid } w).1 = (appender.Rollback { children := spyFrom 0 cs, componentID := cid } (w, [])).1) ∧
    (appender.Append G (appender.mk (errs.map failing) cid) ref l t v w).1.2.Errors = contributions errs ∧
    (appender.Commit (appender.mk (errs.map failing) cid) w).1.Errors = contributions errs ∧
    (appender.Rollback (appender.mk (errs.map failing) cid) w).1.Errors = contributions errs := by
  have hA := Append_err G cs cid ref l t v w
  have hC := Commit_err cs cid w
  have hR := Rollback_err cs cid w
  refine ⟨⟨?_, ?_, ?_, ?_⟩, ⟨?_, ?_, ?_, ?_⟩, ⟨?_, ?_, ?_, ?_⟩, ?_, ?_, ?_⟩
  · simpa [ops] using Append_ops G cs cid ref l t v w []
  · rw [hA, aggregate_Errors]
  · intro h; rw [hA, aggregate_Errors, contributions_plain _ h]
  · rw [(Append_from G cs cid ref l t v w []).1]
  · simpa [ops] using Commit_ops cs cid w []
  · rw [hC, aggregate_Errors]
  · intro h; rw [hC, aggregate_Errors, contributions_plain _ h]
  · rw [(Commit_from cs cid w []).1]
  · simpa [ops] using Rollback_ops cs cid w []
  · rw [hR, aggregate_Errors]
  · intro h; rw [hR, aggregate_Errors, contributions_plain _ h]
  · rw [(Rollback_from cs cid w []).1]
  · simp only [appender.Append, Append_loop_eq_visit]
    rw [visit_failing _ (fun _ _ => rfl), aggregate_Errors]
  · simp only [appender.Commit, Commit_loop_eq_visit]
    rw [visit_failing _ (fun _ _ => rfl), aggregate_Errors]
  · simp only [appender.Rollback, Rollback_loop_eq_visit]
    rw [visit_failing _ (fun _ _ => rfl), aggregate_Errors]

/-- An aggregate of plain errors: the design's example of destinations A, B and C failing
with Ea, Eb and Ec. -/
theorem aggregate_keeps_child_errors_witness :
    (∀ e ∈ failures (appender.Commit
        { children := spyFrom 0 [failing (GoError.plain "Ea"), failing (GoError.plain "Eb"),
            failing (GoError.plain "Ec")], componentID := "c" } ((), [])).2.2.2,
        e.isPlain = true) ∧
      (appender.Commit
        { children := spyFrom 0 [failing (GoError.plain "Ea"), failing (GoError.plain "Eb"),
            failing (GoError.plain "Ec")], componentID := "c" } ((), [])).1.Errors =
        [GoError.plain "Ea", GoError.plain "Eb", GoError.plain "Ec"] :=
  have h : ∀ e ∈ failures (appender.Commit
        { children := spyFrom 0 [failing (GoError.plain "Ea"), failing (GoError.plain "Eb"),
            failing (GoError.plain "Ec")], componentID := "c" } ((), [])).2.2.2,
        e.isPlain = true := by
    show ∀ e ∈ [GoError.plain "Ea", GoError.plain "Eb", GoError.plain "Ec"], e.isPlain = true
    simp [GoError.isPlain]
  ⟨h, ((aggregate_keeps_child_errors (constRefMap 1)
    [failing (GoError.plain "Ea"), failing (GoError.plain "Eb"), failing (GoError.plain "Ec")]
    "c" 0 [] 0 0 () []).2.1.2.2.1 h).trans rfl⟩

/-- C3, refuted as stated: on a transaction with one child that accepts everything, an
`Append` issued after `Commit` returns no error and reaches the child. -/
theorem Append_after_Commit_is_forwarded :
    (appender.Append (spyRefMap (constRefMap 1))
        (appender.Commit { children := spyFrom 0 [accepting], componentID := "c" }
          ((), [])).2.1 5 [("job", "x")] 1000 3
        (appender.Commit { children := spyFrom 0 [accepting], componentID := "c" }
          ((), [])).2.2).1 = (5, none) ∧
      ops (appender.Append (spyRefMap (constRefMap 1))
        (appender.Commit { children := spyFrom 0 [accepting], componentID := "c" }
          ((), [])).2.1 5 [("job", "x")] 1000 3
        (appender.Commit { children := spyFrom 0 [accepting], componentID := "c" }
          ((), [])).2.2).2.2.2 =
        [Op.Commit 0, Op.Append 0 5 [("job", "x")] 1000 3] :=
  ⟨rfl, rfl⟩

/-- C3, amended: a transaction keeps no record of having been committed or rolled back.
`Commit` and `Rollback` return the transaction as it was, and an `Append`, `Commit` or
`Rollback` issued after a first `Commit` or `Rollback` is passed to every child, once each
and in the order of the child list, as before it.  The fan-out rejects nothing itself:
such an `Append` returns the resolved ref, and each such call returns nil exactly when
none of the child calls it made returned an error. -/
theorem calls_after_terminal_are_forwarded (G : GlobalRefMap W)
    (cs : List (storage.Appender W)) (cid : String) (ref : SeriesRef) (l : Labels) (t : Int)
    (v : float64) (w : W) :
    (appender.Commit { children := spyFrom 0 cs, componentID := cid } (w, [])).2.1 = { children := spyFrom 0 cs, componentID := cid } ∧
    (appender.Rollback { children := spyFrom 0 cs, componentID := cid } (w, [])).2.1 = { children := spyFrom 0 cs, componentID := cid } ∧
    (ops (appender.Append (spyRefMap G) { children := spyFrom 0 cs, componentID := cid } ref l t v
        (appender.Commit { children := spyFrom 0 cs, componentID := cid } (w, [])).2.2).2.2.2 =
      (List.range cs.length).map Op.Commit ++
        ((if ref = 0 then [Op.GetOrAddGlobalRefID l] else []) ++
          (List.range cs.length).map (fun i => Op.Append i
            (if ref = 0 then (G.GetOrAddGlobalRefID l (appender.Commit { children := spyFrom 0 cs, componentID := cid } (w, [])).2.2.1).1
              else ref) l t v)) ∧
    ops (appender.Commit { children := spyFrom 0 cs, componentID := cid }
        (appender.Commit { children := spyFrom 0 cs, componentID := cid } (w, [])).2.2).2.2.2 =
      (List.range cs.length).map Op.Commit ++ (List.range cs.length).map Op.Commit ∧
    ops (appender.Rollback { children := spyFrom 0 cs, componentID := cid }
        (appender.Commit { children := spyFrom 0 cs, componentID := cid } (w, [])).2.2).2.2.2 =
      (List.range cs.length).map Op.Commit ++ (List.range cs.length).map Op.Rollback) ∧
    (ops (appender.Append (spyRefMap G) { children := spyFrom 0 cs, componentID := cid } ref l t v
        (appender.Rollback { children := spyFrom 0 cs, componentID := cid } (w, [])).2.2).2.2.2 =
      (List.range cs.length).map Op.Rollback ++
        ((if ref = 0 then [Op.GetOrAddGlobalRefID l] else []) ++
          (List.range cs.length).map (fun i => Op.Append i
            (if ref = 0 then (G.GetOrAddGlobalRefID l (appender.Rollback { children := spyFrom 0 cs, componentID := cid } (w, [])).2.2.1).1
              else ref) l t v)) ∧
    ops (appender.Commit { children := spyFrom 0 cs, componentID := cid }
        (appender.Rollback { children := spyFrom 0 cs, componentID := cid } (w, [])).2.2).2.2.2 =
      (List.range cs.length).map Op.Rollback ++ (List.range cs.length).map Op.Commit ∧
    ops (appender.Rollback { children := spyFrom 0 cs, componentID := cid }
        (appender.Rollback { children := spyFrom 0 cs, componentID := cid } (w, [])).2.2).2.2.2 =
      (List.range cs.length).map Op.Rollback ++ (List.range cs.length).map Op.Rollback) ∧
    ((appender.Append (spyRefMap G) { children := spyFrom 0 cs, componentID := cid } ref l t v
        (appender.Commit { children := spyFrom 0 cs, componentID := cid } (w, [])).2.2).1.1 =
        (if ref = 0 then (G.GetOrAddGlobalRefID l (appender.Commit { children := spyFrom 0 cs, componentID := cid } (w, [])).2.2.1).1
          else ref) ∧
      ((appender.Append (spyRefMap G) { children := spyFrom 0 cs, componentID := cid } ref l t v
        (appender.Commit { children := spyFrom 0 cs, componentID := cid } (w, [])).2.2).1.2 = none ↔
        ∀ e ∈ (appender.Append (spyRefMap G) { children := spyFrom 0 cs, componentID := cid } ref l t v
        (appender.Commit { children := spyFrom 0 cs, componentID := cid } (w, [])).2.2).2.2.2.drop
          (appender.Commit { children := spyFrom 0 cs, componentID := cid } (w, [])).2.2.2.length, e.err = none) ∧
      ((appender.Commit { children := spyFrom 0 cs, componentID := cid }
        (appender.Commit { children := spyFrom 0 cs, componentID := cid } (w, [])).2.2).1 = none ↔
        ∀ e ∈ (appender.Commit { children := spyFrom 0 cs, componentID := cid }
        (appender.Commit { children := spyFrom 0 cs, componentID := cid } (w, [])).2.2).2.2.2.drop
          (appender.Commit { children := spyFrom 0 cs, componentID := cid } (w, [])).2.2.2.length, e.err = none) ∧
      ((appender.Rollback { children := spyFrom 0 cs, componentID := cid }
        (appender.Commit { children := spyFrom 0 cs, componentID := cid } (w, [])).2.2).1 = none ↔
        ∀ e ∈ (appender.Rollback { children := spyFrom 0 cs, componentID := cid }
        (appender.Commit { children := spyFrom 0 cs, componentID := cid } (w, [])).2.2).2.2.2.drop
          (appender.Commit { children := spyFrom 0 cs, componentID := cid } (w, [])).2.2.2.length, e.err = none)) ∧
    ((appender.Append (spyRefMap G) { children := spyFrom 0 cs, componentID := cid } ref l t v
        (appender.Rollback { children := spyFrom 0 cs, componentID := cid } (w, [])).2.2).1.1 =
        (if ref = 0 then (G.GetOrAddGlobalRefID l (appender.Rollback { children := spyFrom 0 cs, componentID := cid } (w, [])).2.2.1).1
          else ref) ∧
      ((appender.Append (spyRefMap G) { children := spyFrom 0 cs, componentID := cid } ref l t v
        (appender.Rollback { children := spyFrom 0 cs, componentID := cid } (w, [])).2.2).1.2 = none ↔
        ∀ e ∈ (appender.Append (spyRefMap G) { children := spyFrom 0 cs, componentID := cid } ref l t v
        (appender.Rollback { children := spyFrom 0 cs, componentID := cid } (w, [])).2.2).2.2.2.drop
          (appender.Rollback { children := spyFrom 0 cs, componentID := cid } (w, [])).2.2.2.length, e.err = none) ∧
      ((appender.Commit { children := spyFrom 0 cs, componentID := cid }
        (appender.Rollback { children := spyFrom 0 cs, componentID := cid } (w, [])).2.2).1 = none ↔
        ∀ e ∈ (appender.Commit { children := spyFrom 0 cs, componentID := cid }
        (appender.Rollback { children := spyFrom 0 cs, componentID := cid } (w, [])).2.2).2.2.2.drop
          (appender.Rollback { children := spyFrom 0 cs, componentID := cid } (w, [])).2.2.2.length, e.err = none) ∧
      ((appender.Rollback { children := spyFrom 0 cs, componentID := cid }
        (appender.Rollback { children := spyFrom 0 cs, componentID := cid } (w, [])).2.2).1 = none ↔
        ∀ e ∈ (appender.Rollback { children := spyFrom 0 cs, componentID := cid }
        (appender.Rollback { children := spyFrom 0 cs, componentID := cid } (w, [])).2.2).2.2.2.drop
          (appender.Rollback { children := spyFrom 0 cs, componentID := cid } (w, [])).2.2.2.length, e.err = none)) := by
  have hC : ops (appender.Commit { children := spyFrom 0 cs, componentID := cid } (w, [])).2.2.2 = (List.range cs.length).map Op.Commit := by
    simpa [ops] using Commit_ops cs cid w []
  have hR : ops (appender.Rollback { children := spyFrom 0 cs, componentID := cid } (w, [])).2.2.2 = (List.range cs.length).map Op.Rollback := by
    simpa [ops] using Rollback_ops cs cid w []
  refine ⟨rfl, rfl, ⟨?_, ?_, ?_⟩, ⟨?_, ?_, ?_⟩, ⟨?_, ?_, ?_, ?_⟩, ⟨?_, ?_, ?_, ?_⟩⟩
  · exact (Append_ops G cs cid ref l t v (appender.Commit { children := spyFrom 0 cs, componentID := cid } (w, [])).2.2.1
      (appender.Commit { children := spyFrom 0 cs, componentID := cid } (w, [])).2.2.2).trans (by rw [hC])
  · exact (Commit_ops cs cid (appender.Commit { children := spyFrom 0 cs, componentID := cid } (w, [])).2.2.1
      (appender.Commit { children := spyFrom 0 cs, componentID := cid } (w, [])).2.2.2).trans (by rw [hC])
  · exact (Rollback_ops cs cid (appender.Commit { children := spyFrom 0 cs, componentID := cid } (w, [])).2.2.1
      (appender.Commit { children := spyFrom 0 cs, componentID := cid } (w, [])).2.2.2).trans (by rw [hC])
  · exact (Append_ops G cs cid ref l t v (appender.Rollback { children := spyFrom 0 cs, componentID := cid } (w, [])).2.2.1
      (appender.Rollback { children := spyFrom 0 cs, componentID := cid } (w, [])).2.2.2).trans (by rw [hR])
  · exact (Commit_ops cs cid (appender.Rollback { children := spyFrom 0 cs, componentID := cid } (w, [])).2.2.1
      (appender.Rollback { children := spyFrom 0 cs, componentID := cid } (w, [])).2.2.2).trans (by rw [hR])
  · exact (Rollback_ops cs cid (appender.Rollback { children := spyFrom 0 cs, componentID := cid } (w, [])).2.2.1
      (appender.Rollback { children := spyFrom 0 cs, componentID := cid } (w, [])).2.2.2).trans (by rw [hR])
  · exact Append_ref (spyRefMap G) _ ref l t v _ |>.trans (by
      by_cases hr : ref = 0 <;> simp [hr, spyRefMap])
  · have h := (Append_from G cs cid ref l t v (appender.Commit { children := spyFrom 0 cs, componentID := cid } (w, [])).2.2.1
      (appender.Commit { children := spyFrom 0 cs, componentID := cid } (w, [])).2.2.2).2
    exact h ▸ aggregate_failures_eq_none _
  · have h := (Commit_from cs cid (appender.Commit { children := spyFrom 0 cs, componentID := cid } (w, [])).2.2.1
      (appender.Commit { children := spyFrom 0 cs, componentID := cid } (w, [])).2.2.2).2
    exact h ▸ aggregate_failures_eq_none _
  · have h := (Rollback_from cs cid (appender.Commit { children := spyFrom 0 cs, componentID := cid } (w, [])).2.2.1
      (appender.Commit { children := spyFrom 0 cs, componentID := cid } (w, [])).2.2.2).2
    exact h ▸ aggregate_failures_eq_none _
  · exact Append_ref (spyRefMap G) _ ref l t v _ |>.trans (by
      by_cases hr : ref = 0 <;> simp [hr, spyRefMap])
  · have h := (Append_from G cs cid ref l t v (appender.Rollback { children := spyFrom 0 cs, componentID := cid } (w, [])).2.2.1
      (appender.Rollback { children := spyFrom 0 cs, componentID := cid } (w, [])).2.2.2).2
    exact h ▸ aggregate_failures_eq_none _
  · have h := (Commit_from cs cid (appender.Rollback { children := spyFrom 0 cs, componentID := cid } (w, [])).2.2.1
      (appender.Rollback { children := spyFrom 0 cs, componentID := cid } (w, [])).2.2.2).2
    exact h ▸ aggregate_failures_eq_none _
  · have h := (Rollback_from cs cid (appender.Rollback { children := spyFrom 0 cs, componentID := cid } (w, [])).2.2.1
      (appender.Rollback { children := spyFrom 0 cs, componentID := cid } (w, [])).2.2.2).2
    exact h ▸ aggregate_failures_eq_none _

/-- C9: `Fanout.Appender` returns a transaction whose children are the appenders opened by
the factories of the non-nil destinations, each called exactly once, in the order of the
destination list and with the context extended by the scrape target and the metadata
store; nil entries are skipped, so there are as many children as non-nil destinations.
The transaction carries the router's component id and the router is returned as it was. -/
theorem Fanout_Appender_opens_live_destinations (ds : List (Option (storage.Appendable W)))
    (cid : String) (ctx : Context) (w : W) :
    (Fanout.Appender { children := ds, componentID := cid } ctx w).1.children =
        (openAll (ContextValue.metricMetadataStore :: ContextValue.target :: ctx) ds w).1 ∧
      (Fanout.Appender { children := ds, componentID := cid } ctx w).2.2 =
        (openAll (ContextValue.metricMetadataStore :: ContextValue.target :: ctx) ds w).2 ∧
      (Fanout.Appender { children := ds, componentID := cid } ctx w).1.children.length =
        (ds.filter Option.isSome).length ∧
      (Fanout.Appender { children := ds, componentID := cid } ctx w).1.componentID = cid ∧
      (Fanout.Appender { children := ds, componentID := cid } ctx w).2.1 =
        { children := ds, componentID := cid } ∧
      ops (Fanout.Appender { children := spyDests 0 ds, componentID := cid } ctx
          (w, [])).2.2.2 =
        (liveDests 0 ds).map (fun j =>
          Op.Appender j (ContextValue.metricMetadataStore :: ContextValue.target :: ctx)) ∧
      (Fanout.Appender { children := spyDests 0 ds, componentID := cid } ctx
          (w, [])).1.children =
        spyAs (liveDests 0 ds)
          (Fanout.Appender { children := ds, componentID := cid } ctx w).1.children := by
  refine ⟨?_, ?_, ?_, rfl, rfl, ?_, ?_⟩
  · simp [Fanout.Appender, Appender_loop_eq_openAll, scrape.ContextWithTarget,
      scrape.ContextWithMetricMetadataStore]
  · simp [Fanout.Appender, Appender_loop_eq_openAll, scrape.ContextWithTarget,
      scrape.ContextWithMetricMetadataStore]
  · rw [Appender_children_length ds cid ctx w 0, liveDests_length]
  · rw [Appender_spyDests]
    simp [ops, Function.comp_def]
  · rw [Appender_spyDests]

/-- C5: a transaction opened before `UpdateChildren` keeps its children: after the update
its `Append`, `Commit` and `Rollback` still reach exactly the non-nil destinations of the
list that was current when it was opened, in order.  A transaction opened after the update
has one child for each non-nil entry of the new list, and its calls reach those and no
destination of the old list.  Destinations of the old list are recorded under their
positions, those of the new list under their positions shifted past the old list. -/
theorem UpdateChildren_spares_open_transactions (G : GlobalRefMap W)
    (old new : List (Option (storage.Appendable W))) (cid : String) (ctx ctx2 : Context)
    (w w2 w3 : W) (ref : SeriesRef) (l : Labels) (t : Int) (v : float64) :
    (ops (appender.Append (spyRefMap G) (Fanout.Appender (NewFanout (spyDests 0 old) cid) ctx (w, [])).1
        ref l t v (w3, [])).2.2.2 =
      (if ref = 0 then [Op.GetOrAddGlobalRefID l] else []) ++
        (liveDests 0 old).map (fun i =>
          Op.Append i (if ref = 0 then (G.GetOrAddGlobalRefID l w3).1 else ref) l t v) ∧
    ops (appender.Commit (Fanout.Appender (NewFanout (spyDests 0 old) cid) ctx (w, [])).1
        (w3, [])).2.2.2 = (liveDests 0 old).map Op.Commit ∧
    ops (appender.Rollback (Fanout.Appender (NewFanout (spyDests 0 old) cid) ctx (w, [])).1
        (w3, [])).2.2.2 = (liveDests 0 old).map Op.Rollback) ∧
    (Fanout.UpdateChildren (Fanout.Appender (NewFanout (spyDests 0 old) cid) ctx (w, [])).2.1
        (spyDests old.length new)).children = spyDests old.length new ∧
    ((Fanout.Appender (Fanout.UpdateChildren (Fanout.Appender (NewFanout (spyDests 0 old) cid) ctx (w, [])).2.1
        (spyDests old.length new)) ctx2 (w2, [])).1).children.length = (new.filter Option.isSome).length ∧
    (ops (appender.Append (spyRefMap G) (Fanout.Appender (Fanout.UpdateChildren (Fanout.Appender (NewFanout (spyDests 0 old) cid) ctx (w, [])).2.1
        (spyDests old.length new)) ctx2 (w2, [])).1
        ref l t v (w3, [])).2.2.2 =
      (if ref = 0 then [Op.GetOrAddGlobalRefID l] else []) ++
        (liveDests old.length new).map (fun i =>
          Op.Append i (if ref = 0 then (G.GetOrAddGlobalRefID l w3).1 else ref) l t v) ∧
    ops (appender.Commit (Fanout.Appender (Fanout.UpdateChildren (Fanout.Appender (NewFanout (spyDests 0 old) cid) ctx (w, [])).2.1
        (spyDests old.length new)) ctx2 (w2, [])).1
        (w3, [])).2.2.2 = (liveDests old.length new).map Op.Commit ∧
    ops (appender.Rollback (Fanout.Appender (Fanout.UpdateChildren (Fanout.Appender (NewFanout (spyDests 0 old) cid) ctx (w, [])).2.1
        (spyDests old.length new)) ctx2 (w2, [])).1
        (w3, [])).2.2.2 = (liveDests old.length new).map Op.Rollback) ∧
    (∀ j ∈ liveDests 0 old, j < old.length) ∧
    (∀ j ∈ liveDests old.length new, old.length ≤ j) := by
  have e1 : (Fanout.Appender (NewFanout (spyDests 0 old) cid) ctx (w, [])).1 = appender.mk (spyAs (liveDests 0 old)
      (Fanout.Appender { children := old, componentID := cid } ctx w).1.children) cid := by
    simp only [NewFanout]
    rw [Appender_spyDests]
  have e2 : (Fanout.Appender (Fanout.UpdateChildren (Fanout.Appender (NewFanout (spyDests 0 old) cid) ctx (w, [])).2.1
        (spyDests old.length new)) ctx2 (w2, [])).1 = appender.mk (spyAs (liveDests old.length new)
      (Fanout.Appender { children := new, componentID := cid } ctx2 w2).1.children) cid := by
    simp only [NewFanout, Fanout.UpdateChildren]
    rw [Appender_spyDests]
    simp only [Fanout.Appender]
  have h1 := (Appender_children_length old cid ctx w 0).symm
  have h2 := (Appender_children_length new cid ctx2 w2 old.length).symm
  refine ⟨⟨?_, ?_, ?_⟩, rfl, ?_, ⟨?_, ?_, ?_⟩, ?_, ?_⟩
  · rw [e1]; simpa [ops] using Append_ops_spyAs G _ _ cid ref l t v w3 [] h1
  · rw [e1]; simpa [ops] using Commit_ops_spyAs _ _ cid w3 [] h1
  · rw [e1]; simpa [ops] using Rollback_ops_spyAs _ _ cid w3 [] h1
  · rw [e2]
    simp only
    rw [← liveDests_length old.length new, spyAs_length _ _ h2]
    exact h2.symm
  · rw [e2]; simpa [ops] using Append_ops_spyAs G _ _ cid ref l t v w3 [] h2
  · rw [e2]; simpa [ops] using Commit_ops_spyAs _ _ cid w3 [] h2
  · rw [e2]; simpa [ops] using Rollback_ops_spyAs _ _ cid w3 [] h2
  · intro j hj
    have := liveDests_ge 0 old j hj
    omega
  · intro j hj
    exact (liveDests_ge old.length new j hj).1

/-- C10: for a non-zero `rivertypes.Secret`, `convertField` returns an attr field, keyed by
the tag, whose value is the string field "(secret)", so two secrets give the same output
under the same tag; for a non-zero `rivertypes.OptionalSecret` the string shown is
"(secret)" when `IsSecret` is set and the stored `Value` when it is not. -/
theorem convertField_redacts_secrets {X H : Type} (R : Reflection X H)
    (f : Option rivertags.Field) (s1 s2 : String) (isSecret : Bool) (value : String)
    (h1 : s1 ≠ "") (h2 : s2 ≠ "") (h3 : isSecret = true ∨ value ≠ "") :
    convertField R (some (GoValue.secret s1)) f = some (stringAttr H f "(secret)") ∧
      convertField R (some (GoValue.secret s1)) f =
        convertField R (some (GoValue.secret s2)) f ∧
      convertField R (some (GoValue.optionalSecret isSecret value)) f =
        some (stringAttr H f (if isSecret = true then "(secret)" else value)) := by
  refine ⟨?_, ?_, ?_⟩
  · simp [convertField, derefAll, GoValue.IsZero, h1, stringAttr, Field.ofType]
  · simp [convertField, derefAll, GoValue.IsZero, h1, h2]
  · rcases h3 with h | h
    · simp [convertField, derefAll, GoValue.IsZero, h, stringAttr, Field.ofType]
    · cases isSecret <;> simp [convertField, derefAll, GoValue.IsZero, h, stringAttr, Field.ofType]

/-- Two secrets and an optional secret that is not one, under the tag `password`. -/
theorem convertField_redacts_secrets_witness :
    ("hunter2" ≠ "" ∧ "swordfish" ≠ "" ∧ (false = true ∨ "admin" ≠ "")) ∧
      convertField noReflection (some (GoValue.secret "hunter2"))
          (some { Name := ["password"], Index := [], Flags := 0 }) =
        some (stringAttr Unit (some { Name := ["password"], Index := [], Flags := 0 })
          "(secret)") ∧
      convertField noReflection (some (GoValue.secret "hunter2"))
          (some { Name := ["password"], Index := [], Flags := 0 }) =
        convertField noReflection (some (GoValue.secret "swordfish"))
          (some { Name := ["password"], Index := [], Flags := 0 }) ∧
      convertField noReflection (some (GoValue.optionalSecret false "admin"))
          (some { Name := ["password"], Index := [], Flags := 0 }) =
        some (stringAttr Unit (some { Name := ["password"], Index := [], Flags := 0 })
          (if false = true then "(secret)" else "admin")) :=
  ⟨⟨by decide, by decide, Or.inr (by decide)⟩,
    convertField_redacts_secrets noReflection
      (some { Name := ["password"], Index := [], Flags := 0 }) "hunter2" "swordfish" false
      "admin" (by decide) (by decide) (Or.inr (by decide))⟩

end Agent
